import Mathlib

/-!
Verification of the chunk & vector storage subsystem of the
insert-relevant-xkcd-discord-bot repository (the `db` crate).

Shallow embedding conventions:
* Rust `u64`/`usize` values are modelled as `Nat` (no operation here wraps).
* Rust `f32` values are modelled by their IEEE-754 bit patterns, i.e. as
  `Nat` values below 2^32.  The claims about embeddings only concern
  lengths, byte-level encoding and ordering, never float arithmetic, and
  `f32::from_le_bytes` is exactly the little-endian reassembly of the bit
  pattern, so this representation is faithful.
* The libsql engine is an external collaborator.  Storage is modelled as
  `DBState` (tables kept in primary-key order, the order in which the
  engine scans a `INTEGER PRIMARY KEY` b-tree).  The statements a Rust
  function issues to the engine are reified as a `List Cmd` trace, and an
  interpreter `runTrace` gives the engine's transactional semantics:
  statements executed inside an open transaction touch only the
  transaction-local state, which is installed by `commitTx` and discarded
  if the trace ends without a commit (libsql rolls back a dropped
  transaction).
* Fallible Rust functions returning `Result<T, DatabaseError>` become
  Lean functions returning `Except DatabaseError T` (paired with their
  command trace when the claim is about storage interaction).
-/

/-- EMBEDDING_DIM from src/db/src/lib.rs: the dimension of the embedding
vectors (must match F32_BLOB(1024) in the schema). -/
def EMBEDDING_DIM : Nat := 1024

/-- DatabaseError from src/db/src/error.rs, one constructor per variant of
the Rust enum, in source order. -/
inductive DatabaseError where
  | InitializationError (msg : String)
  | Connection (msg : String)
  | NotInitialized
  | InvalidComicNumber (n : Nat)
  | InvalidEmbeddingDimension (msg : String)
  | InvalidChunkIndex (n : Nat)
  | InvalidContent (msg : String)
  | ComicNotFound (n : Nat)
  | ChunkNotFound (n : Nat)
  | ComicAlreadyExists (n : Nat)
  | ConstraintViolation (msg : String)
  | PreparedFailed (msg : String)
  | QueryFailed (msg : String)
  | RowParseFailed (msg : String)
  | TransactionFailed (msg : String)
  | VectorSearchFailed (msg : String)
  | MetadataNotFound (key : String)
  | MetaParseFailed (msg : String)
  | Serialization (msg : String)
  | InvalidSectionType (msg : String)
  | IoError (msg : String)
  | LibSql (msg : String)
deriving Repr, DecidableEq

/-- Variants of the "Not Found Errors" section of the `DatabaseError`
taxonomy in src/db/src/error.rs (`ComicNotFound`, `ChunkNotFound`) together
with `MetadataNotFound`: the kinds a caller branches on for absence. -/
def isNotFoundKind : DatabaseError → Bool
  | .ComicNotFound _ => true
  | .ChunkNotFound _ => true
  | .MetadataNotFound _ => true
  | _ => false

/-- Variants of the "Conflict Errors" section of the `DatabaseError`
taxonomy in src/db/src/error.rs: `ComicAlreadyExists` (duplicate primary
key) and `ConstraintViolation`. -/
def isConflictKind : DatabaseError → Bool
  | .ComicAlreadyExists _ => true
  | .ConstraintViolation _ => true
  | _ => false

/-- Tests whether an error is the dimension-mismatch kind
(`InvalidEmbeddingDimension`). -/
def isDimensionKind : DatabaseError → Bool
  | .InvalidEmbeddingDimension _ => true
  | _ => false

/-! ## Vector codec (src/db/src/chunks.rs) -/

/-- Model of `f32::from_le_bytes([b0, b1, b2, b3])`: reassembles the
IEEE-754 bit pattern of the float from its four bytes, least-significant
byte first (little-endian). -/
def f32_from_le_bytes (b0 b1 b2 b3 : Nat) : Nat :=
  b0 + 256 * b1 + 65536 * b2 + 16777216 * b3

/-- Model of `slice::chunks_exact(4)`: the list of complete 4-byte groups
of the input, in order; a trailing remainder of fewer than 4 bytes is not
produced. -/
def chunksExact4 : List Nat → List (Nat × Nat × Nat × Nat)
  | b0 :: b1 :: b2 :: b3 :: rest => (b0, b1, b2, b3) :: chunksExact4 rest
  | _ => []

/-- f32_blob_to_vec from src/db/src/chunks.rs: decodes a stored binary
embedding column into floats by mapping `f32::from_le_bytes` over
`chunks_exact(4)` of the blob. -/
def f32_blob_to_vec (blob : List Nat) : List Nat :=
  (chunksExact4 blob).map (fun q => f32_from_le_bytes q.1 q.2.1 q.2.2.1 q.2.2.2)

theorem chunksExact4_nil : chunksExact4 [] = [] := rfl

theorem chunksExact4_length (blob : List Nat) :
    (chunksExact4 blob).length = blob.length / 4 := by
  induction blob using chunksExact4.induct with
  | case1 b0 b1 b2 b3 rest ih =>
      simp only [chunksExact4, List.length_cons, ih]
      omega
  | case2 l h =>
      match l, h with
      | [], _ => simp [chunksExact4]
      | [a], _ => simp [chunksExact4]
      | [a, b], _ => simp [chunksExact4]
      | [a, b, c], _ => simp [chunksExact4]
      | b0 :: b1 :: b2 :: b3 :: rest, h => exact absurd rfl (h b0 b1 b2 b3 rest)

theorem f32_blob_to_vec_length (blob : List Nat) :
    (f32_blob_to_vec blob).length = blob.length / 4 := by
  simp [f32_blob_to_vec, chunksExact4_length]

theorem getD_cons4 (a b c d e : Nat) (l : List Nat) (n : Nat) :
    (a :: b :: c :: d :: l).getD (n + 4) e = l.getD n e := rfl

theorem f32_blob_to_vec_get (blob : List Nat) :
    ∀ i, i < blob.length / 4 →
      (f32_blob_to_vec blob)[i]? =
        some (f32_from_le_bytes (blob.getD (4 * i) 0) (blob.getD (4 * i + 1) 0)
          (blob.getD (4 * i + 2) 0) (blob.getD (4 * i + 3) 0)) := by
  induction blob using chunksExact4.induct with
  | case1 b0 b1 b2 b3 rest ih =>
      intro i hi
      cases i with
      | zero => simp [f32_blob_to_vec, chunksExact4]
      | succ i =>
          have hi' : i < rest.length / 4 := by
            simp only [List.length_cons] at hi
            omega
          have hL : (f32_blob_to_vec (b0 :: b1 :: b2 :: b3 :: rest))[i + 1]? =
              (f32_blob_to_vec rest)[i]? := by
            simp [f32_blob_to_vec, chunksExact4]
          have e0 : 4 * (i + 1) = 4 * i + 4 := by ring
          have e1 : 4 * (i + 1) + 1 = (4 * i + 1) + 4 := by ring
          have e2 : 4 * (i + 1) + 2 = (4 * i + 2) + 4 := by ring
          have e3 : 4 * (i + 1) + 3 = (4 * i + 3) + 4 := by ring
          rw [hL, ih i hi', e3, e2, e1, e0, getD_cons4, getD_cons4, getD_cons4, getD_cons4]
  | case2 l h =>
      intro i hi
      exfalso
      match l, h, hi with
      | [], _, hi => exact absurd hi (by simp)
      | [a], _, hi => exact absurd hi (by simp)
      | [a, b], _, hi => exact absurd hi (by simp)
      | [a, b, c], _, hi => exact absurd hi (by simp)
      | b0 :: b1 :: b2 :: b3 :: rest, h, hi => exact absurd rfl (h b0 b1 b2 b3 rest)

theorem f32_blob_to_vec_take (blob : List Nat) :
    f32_blob_to_vec blob = f32_blob_to_vec (blob.take (4 * (blob.length / 4))) := by
  induction blob using chunksExact4.induct with
  | case1 b0 b1 b2 b3 rest ih =>
      have hlen : (b0 :: b1 :: b2 :: b3 :: rest).length / 4 = rest.length / 4 + 1 := by
        simp only [List.length_cons]
        omega
      have htake : (b0 :: b1 :: b2 :: b3 :: rest).take (4 * (rest.length / 4 + 1)) =
          b0 :: b1 :: b2 :: b3 :: rest.take (4 * (rest.length / 4)) := by
        have : 4 * (rest.length / 4 + 1) = 4 * (rest.length / 4) + 4 := by ring
        rw [this]
        rfl
      rw [hlen, htake]
      simp only [f32_blob_to_vec, chunksExact4, List.map_cons]
      rw [← f32_blob_to_vec, ← f32_blob_to_vec, ← ih]
  | case2 l h =>
      match l, h with
      | [], _ => simp [f32_blob_to_vec, chunksExact4]
      | [a], _ => simp [f32_blob_to_vec, chunksExact4]
      | [a, b], _ => simp [f32_blob_to_vec, chunksExact4]
      | [a, b, c], _ => simp [f32_blob_to_vec, chunksExact4]
      | b0 :: b1 :: b2 :: b3 :: rest, h => exact absurd rfl (h b0 b1 b2 b3 rest)

/-! ## Data model (src/db/src/models.rs) -/

/-- SectionType from src/db/src/models.rs. -/
inductive SectionType where
  | TitleHover
  | Explanation
  | Transcript
  | Trivia
  | Other
deriving Repr, DecidableEq

/-- The strum `Display` mapping of `SectionType` with
`serialize_all = "snake_case"`. -/
def sectionTypeToString : SectionType → String
  | .TitleHover => "title_hover"
  | .Explanation => "explanation"
  | .Transcript => "transcript"
  | .Trivia => "trivia"
  | .Other => "other"

/-- Comics from src/db/src/models.rs. -/
structure Comics where
  comic_number : Nat
  title : String
  url : String
  xkcd_url : String
  hover_text : Option String
  last_revision_id : Nat
  last_revision_timestamp : String
  scraped_at : String
  updated_at : String
deriving Repr, DecidableEq

/-- Chunks from src/db/src/models.rs (`id` is `None` before insert;
`embedding` is the list of f32 bit patterns). -/
structure Chunks where
  id : Option Nat
  comic_number : Nat
  chunk_text : String
  chunk_index : Nat
  section_type : Option SectionType
  embedding : List Nat
deriving Repr, DecidableEq

/-- A persisted row of the `xkcd_chunks` table: `id` is the
storage-assigned rowid, `section_type` its stored string form and
`embedding` the engine's decoded vector content. -/
structure ChunkRow where
  id : Nat
  comic_number : Nat
  chunk_text : String
  chunk_index : Nat
  section_type : Option String
  embedding : List Nat
deriving Repr, DecidableEq

/-! ## Storage engine model

The libsql engine is external (spec section 6).  `DBState` is the
persisted content of one database: tables are kept in primary-key order,
which is the order a full scan of an `INTEGER PRIMARY KEY` b-tree returns
rows in.  `foreign_keys` is the per-connection `PRAGMA foreign_keys`
flag; the engine checks the chunk table's foreign key only when it is on. -/

structure DBState where
  comics : List Comics
  chunks : List ChunkRow
  next_id : Nat
  foreign_keys : Bool
deriving Repr, DecidableEq

/-- Whether a comic with the given number exists in storage. -/
def hasComic (st : DBState) (n : Nat) : Bool :=
  st.comics.any (fun c => c.comic_number == n)

/-- Engine effect of a successful execution of the prepared
`INSERT INTO xkcd_chunks ...` statement: appends the row with the next
rowid (the `id` column is autoincrement). -/
def addChunkRow (st : DBState) (c : Chunks) : DBState :=
  let row : ChunkRow :=
    { id := st.next_id, comic_number := c.comic_number,
      chunk_text := c.chunk_text, chunk_index := c.chunk_index,
      section_type := c.section_type.map sectionTypeToString,
      embedding := c.embedding }
  { st with chunks := st.chunks ++ [row], next_id := st.next_id + 1 }

/-- Insertion into a primary-key-ordered comic table. -/
def insertComicSorted (c : Comics) : List Comics → List Comics
  | [] => [c]
  | d :: rest =>
      if c.comic_number < d.comic_number then c :: d :: rest
      else d :: insertComicSorted c rest

/-- Engine effect of a successful `INSERT INTO xkcd_comics ...`. -/
def addComic (st : DBState) (c : Comics) : DBState :=
  { st with comics := insertComicSorted c st.comics }

/-- Engine effect of `UPDATE xkcd_comics SET last_revision_id = ?,
last_revision_timestamp = ?, updated_at = ? WHERE comic_number = ?`:
updates matching rows in place (zero rows matched means no change). -/
def updatedComic (c : Comics) (lrid : Nat) (lrts upd : String) : Comics :=
  { c with
    last_revision_id := lrid, last_revision_timestamp := lrts,
    updated_at := upd }

def updateComicRow (st : DBState) (n lrid : Nat) (lrts upd : String) : DBState :=
  { st with comics := st.comics.map (fun c =>
      if c.comic_number == n then updatedComic c lrid lrts upd else c) }

/-- The statements a repository function issues to the engine, reified.
A failed execution writes nothing, so only successful executions appear
in a trace. -/
inductive Cmd where
  | beginTx
  | prepareStmt (sql : String)
  | resetStmt
  | execQuery (sql : String)
  | execInsertChunk (c : Chunks)
  | execInsertComic (c : Comics)
  | execUpdateComic (n : Nat) (lrid : Nat) (lrts upd : String)
  | commitTx
deriving Repr, DecidableEq

/-- Engine connection during a call: the committed storage plus an open
transaction's local state, if any. -/
structure Engine where
  committed : DBState
  tx : Option DBState
deriving Repr, DecidableEq

/-- Transactional engine semantics of one statement.  Statements executed
while a transaction is open touch only the transaction-local state;
`commitTx` installs it.  A trace that opens a transaction and ends
without committing leaves the committed storage untouched (libsql rolls
a dropped transaction back). -/
def stepCmd (e : Engine) : Cmd → Engine
  | .beginTx => { e with tx := some e.committed }
  | .prepareStmt _ => e
  | .resetStmt => e
  | .execQuery _ => e
  | .execInsertChunk c =>
      match e.tx with
      | some t => { e with tx := some (addChunkRow t c) }
      | none => { e with committed := addChunkRow e.committed c }
  | .execInsertComic c =>
      match e.tx with
      | some t => { e with tx := some (addComic t c) }
      | none => { e with committed := addComic e.committed c }
  | .execUpdateComic n lrid lrts upd =>
      match e.tx with
      | some t => { e with tx := some (updateComicRow t n lrid lrts upd) }
      | none => { e with committed := updateComicRow e.committed n lrid lrts upd }
  | .commitTx =>
      match e.tx with
      | some t => { committed := t, tx := none }
      | none => e

/-- The storage persisted after a call that issued the given trace. -/
def runTrace (st : DBState) (tr : List Cmd) : DBState :=
  (tr.foldl stepCmd { committed := st, tx := none }).committed

/-! ## Embedding validator and chunk repository (src/db/src/chunks.rs) -/

/-- The message built by `validate_embedding` on failure: reports the
expected and the actual length. -/
def dimensionMismatchMsg (actual : Nat) : String :=
  "Expected " ++ toString EMBEDDING_DIM ++ " dimensions, got " ++ toString actual

/-- validate_embedding from src/db/src/chunks.rs. -/
def validate_embedding (embedding : List Nat) : Except DatabaseError Unit :=
  if embedding.length ≠ EMBEDDING_DIM then
    .error (.InvalidEmbeddingDimension (dimensionMismatchMsg embedding.length))
  else
    .ok ()

/-- The SQL text of the prepared chunk insert (src/db/src/chunks.rs,
identical in `insert_chunk` and `insert_chunks_batch`). -/
def insertChunkSql : String :=
  "INSERT INTO xkcd_chunks (comic_number, chunk_text, chunk_index, section_type, embedding) VALUES (?, ?, ?, ?, vector32(?))"

/-- Engine message on a foreign-key rejection of a chunk insert. -/
def fkViolationMsg : String :=
  "SQLITE_CONSTRAINT: FOREIGN KEY constraint failed"

/-- Whether the engine accepts executing the prepared chunk insert: the
`xkcd_chunks.comic_number` foreign key is checked only when the
connection's `foreign_keys` pragma is on. -/
def chunkInsertAccepted (st : DBState) (c : Chunks) : Bool :=
  !st.foreign_keys || hasComic st c.comic_number

/-- insert_chunk from src/db/src/chunks.rs: validates the embedding, then
prepares and executes one insert; returns `last_insert_rowid`.  The pair
is (trace of statements issued, returned result). -/
def insert_chunk (st : DBState) (c : Chunks) : List Cmd × Except DatabaseError Nat :=
  match validate_embedding c.embedding with
  | .error e => ([], .error e)
  | .ok _ =>
      if chunkInsertAccepted st c then
        ([.prepareStmt insertChunkSql, .execInsertChunk c], .ok st.next_id)
      else
        ([.prepareStmt insertChunkSql], .error (.QueryFailed fkViolationMsg))

/-- The validation loop at the top of `insert_chunks_batch`: validates
every member's embedding, in order, before anything else; returns the
first failure. -/
def validateAll : List Chunks → Except DatabaseError Unit
  | [] => .ok ()
  | c :: rest =>
      match validate_embedding c.embedding with
      | .error e => .error e
      | .ok _ => validateAll rest

/-- The per-chunk loop of `insert_chunks_batch`: executes the shared
prepared statement for each chunk and resets it after each execution;
stops at the first engine failure.  Foreign-key acceptance is decided
against `st` (the state at transaction start): chunk inserts never add
comics, so the comic table seen inside the transaction is the one at
transaction start. -/
def batchExecs (st : DBState) : List Chunks → List Cmd × Except DatabaseError Unit
  | [] => ([], .ok ())
  | c :: rest =>
      if chunkInsertAccepted st c then
        let r := batchExecs st rest
        (.execInsertChunk c :: .resetStmt :: r.1, r.2)
      else
        ([], .error (.QueryFailed fkViolationMsg))

/-- insert_chunks_batch from src/db/src/chunks.rs: validates every
member's embedding before anything touches the engine; then opens one
transaction, prepares the insert statement once, executes it per chunk
(resetting in between) and commits only when every execution succeeded.
An execution failure returns the error with the transaction left
uncommitted (dropped, hence rolled back). -/
def insert_chunks_batch (st : DBState) (cs : List Chunks) :
    List Cmd × Except DatabaseError Unit :=
  match validateAll cs with
  | .error e => ([], .error e)
  | .ok _ =>
      let r := batchExecs st cs
      match r.2 with
      | .error e => (Cmd.beginTx :: Cmd.prepareStmt insertChunkSql :: r.1, .error e)
      | .ok _ =>
          (Cmd.beginTx :: Cmd.prepareStmt insertChunkSql :: r.1 ++ [Cmd.commitTx], .ok ())

/-! ## Vector search (src/db/src/chunks.rs) -/

/-- ChunkSearchResult from src/db/src/chunks.rs: the read-only projection
a vector search returns, one value per hit. -/
structure ChunkSearchResult where
  chunk_id : Nat
  comic_number : Nat
  chunk_text : String
  section_type : Option String
  comic_title : String
  xkcd_url : String
  hover_text : Option String
deriving Repr, DecidableEq

/-- The field names of `ChunkSearchResult`, in declaration order
(src/db/src/chunks.rs lines 14-29); one entry per field of the struct. -/
def chunkSearchResultFields : List String :=
  ["chunk_id", "comic_number", "chunk_text", "section_type", "comic_title",
    "xkcd_url", "hover_text"]

/-- The SQL text of the vector search query (src/db/src/chunks.rs):
selects seven columns from `vector_top_k` joined against `xkcd_chunks`
and `xkcd_comics`. -/
def vectorSearchSql : String :=
  "SELECT xc.id, xc.comic_number, xc.chunk_text, xc.section_type, c.title, c.xkcd_url, c.hover_text FROM vector_top_k(?, vector32(?), ?) v JOIN xkcd_chunks xc ON xc.rowid = v.id JOIN xkcd_comics c ON c.comic_number = xc.comic_number"

/-- The inner joins of the vector search query: resolves a rowid returned
by `vector_top_k` to its chunk row and the owning comic; a rowid whose
chunk or comic is missing produces no output row (inner join). -/
def joinRow (st : DBState) (rowid : Nat) : Option ChunkSearchResult :=
  (st.chunks.find? (fun xc => xc.id == rowid)).bind fun xc =>
    (st.comics.find? (fun c => c.comic_number == xc.comic_number)).map fun c =>
      { chunk_id := xc.id, comic_number := xc.comic_number,
        chunk_text := xc.chunk_text, section_type := xc.section_type,
        comic_title := c.title, xkcd_url := c.xkcd_url,
        hover_text := c.hover_text }

/-- vector_search from src/db/src/chunks.rs.  `engineTopK` is the
engine's opaque `vector_top_k` nearest-neighbour primitive (spec section
6): it yields candidate rowids given the query vector and count. -/
def vector_search (engineTopK : DBState → List Nat → Nat → List Nat)
    (st : DBState) (query_embedding : List Nat) (top_k : Nat) :
    List Cmd × Except DatabaseError (List ChunkSearchResult) :=
  match validate_embedding query_embedding with
  | .error e => ([], .error e)
  | .ok _ =>
      ([.prepareStmt vectorSearchSql, .execQuery vectorSearchSql],
        .ok ((engineTopK st query_embedding top_k).filterMap (joinRow st)))

/-- Modelled from the spec: `vector_search_filtered` is named by the spec
(sections 4.3 and 8) but absent from src/ (only `vector_search` is
there).  Per the spec's words it is the same as `vector_search` but
restricts candidates to the given set of comic numbers, and an empty
filter set yields an empty result set without error, regardless of the
query embedding or `top_k`. -/
def vector_search_filtered (engineTopK : DBState → List Nat → Nat → List Nat)
    (st : DBState) (query_embedding : List Nat) (top_k : Nat)
    (comic_numbers : List Nat) :
    List Cmd × Except DatabaseError (List ChunkSearchResult) :=
  if comic_numbers.isEmpty then
    ([], .ok [])
  else
    match validate_embedding query_embedding with
    | .error e => ([], .error e)
    | .ok _ =>
        ([.prepareStmt vectorSearchSql, .execQuery vectorSearchSql],
          .ok (((engineTopK st query_embedding top_k).filterMap (joinRow st)).filter
            (fun r => comic_numbers.contains r.comic_number)))

/-! ## Comic repository (src/db/src/comics.rs) -/

/-- The SQL text of the comic insert. -/
def insertComicSql : String :=
  "INSERT INTO xkcd_comics (comic_number, title, url, xkcd_url, hover_text, last_revision_id, last_revision_timestamp, scraped_at, updated_at) VALUES (?, ?, ?, ?, ?, ?, ?, ?, ?)"

/-- Engine message on a primary-key rejection of a comic insert. -/
def uniqueViolationMsg : String :=
  "SQLITE_CONSTRAINT: UNIQUE constraint failed: xkcd_comics.comic_number"

/-- insert_comic from src/db/src/comics.rs: prepares and executes one
insert; the engine rejects a duplicate `comic_number` and the code maps
that execution error to `DatabaseError::QueryFailed(e.to_string())`. -/
def insert_comic (st : DBState) (c : Comics) : List Cmd × Except DatabaseError Unit :=
  if hasComic st c.comic_number then
    ([.prepareStmt insertComicSql], .error (.QueryFailed uniqueViolationMsg))
  else
    ([.prepareStmt insertComicSql, .execInsertComic c], .ok ())

/-- The SQL text of the comic update. -/
def updateComicSql : String :=
  "UPDATE xkcd_comics SET last_revision_id = ?, last_revision_timestamp = ?, updated_at = ? WHERE comic_number = ?"

/-- update_comic from src/db/src/comics.rs: prepares and executes the
UPDATE (an UPDATE matching zero rows executes successfully and changes
nothing), then returns `Err(DatabaseError::InvalidComicNumber(n))` when
`rows_affected == 0`. -/
def update_comic (st : DBState) (comic_number last_revision_id : Nat)
    (last_revision_timestamp updated_at : String) :
    List Cmd × Except DatabaseError Unit :=
  let tr := [Cmd.prepareStmt updateComicSql,
    Cmd.execUpdateComic comic_number last_revision_id last_revision_timestamp updated_at]
  if hasComic st comic_number then
    (tr, .ok ())
  else
    (tr, .error (.InvalidComicNumber comic_number))

/-- get_comics_batch from src/db/src/comics.rs:
`SELECT * FROM xkcd_comics WHERE comic_number IN (SELECT value FROM
json_each(?))` with the input numbers JSON-encoded: a scan of the comic
table keeping the rows whose number occurs in the input; row order is
the table's primary-key scan order.  (Engine-availability failures of
prepare/query are not modelled; the query itself cannot fail.) -/
def get_comics_batch (st : DBState) (comic_numbers : List Nat) : List Comics :=
  st.comics.filter (fun c => comic_numbers.contains c.comic_number)

/-! ## Open protocol (src/db/src/lib.rs and src/db/src/schema.rs) -/

/-- What `Database::new` finds at the target path: whether a file exists
there, and, when it is an initialized database, the stored value of the
metadata key INITIALIZED (`none` when the key or table is absent). -/
structure OpenTarget where
  fileExists : Bool
  initializedMarker : Option String
deriving Repr, DecidableEq

/-- The connection returned by a successful open; `foreign_keys_enabled`
records whether `PRAGMA foreign_keys = ON` was executed on it (the
engine's default is off). -/
structure ConnState where
  foreign_keys_enabled : Bool
deriving Repr, DecidableEq

/-- Database::init from src/db/src/schema.rs: on a fresh path it builds
the connection, executes `PRAGMA foreign_keys = ON` on it, and creates
the tables; an existing file is an initialization error. -/
def database_init (f : OpenTarget) : Except DatabaseError ConnState :=
  if f.fileExists then
    .error (.InitializationError "File already exists")
  else
    .ok { foreign_keys_enabled := true }

/-- Database::new from src/db/src/lib.rs: when the file exists it builds
and connects, reads metadata key INITIALIZED, and returns the connection
when the value is "true" — this branch never executes a
`PRAGMA foreign_keys` statement, so the connection keeps the engine
default (off).  When the file does not exist it delegates to
`Database::init`. -/
def database_new (f : OpenTarget) : Except DatabaseError ConnState :=
  if f.fileExists then
    match f.initializedMarker with
    | none => .error (.MetadataNotFound "INITIALIZED")
    | some v =>
        if v == "true" then
          .ok { foreign_keys_enabled := false }
        else
          .error (.InitializationError "Database Schema Mismatch - File exists")
  else
    database_init f

/-! ## Helper lemmas -/

/-- Whether an `Except` result is a success. -/
def exceptIsOk {ε α : Type} : Except ε α → Bool
  | .ok _ => true
  | .error _ => false

/-- The statement sequence a fully successful batch loop issues: one
execution followed by one reset per chunk, in batch order. -/
def execResetSeq : List Chunks → List Cmd
  | [] => []
  | c :: rest => Cmd.execInsertChunk c :: Cmd.resetStmt :: execResetSeq rest

theorem validate_embedding_ok_iff (e : List Nat) :
    validate_embedding e = .ok () ↔ e.length = EMBEDDING_DIM := by
  unfold validate_embedding
  by_cases h : e.length = EMBEDDING_DIM <;> simp [h]

theorem validateAll_ok_iff (cs : List Chunks) :
    validateAll cs = .ok () ↔ ∀ c ∈ cs, c.embedding.length = EMBEDDING_DIM := by
  induction cs with
  | nil => simp [validateAll]
  | cons c rest ih =>
      unfold validateAll
      by_cases hc : c.embedding.length = EMBEDDING_DIM
      · have : validate_embedding c.embedding = .ok () :=
          (validate_embedding_ok_iff _).mpr hc
        simp [this, ih, hc]
      · have : validate_embedding c.embedding =
            .error (.InvalidEmbeddingDimension (dimensionMismatchMsg c.embedding.length)) := by
          simp [validate_embedding, hc]
        simp [this, hc]

theorem validateAll_error_of_bad (cs : List Chunks)
    (h : ∃ c ∈ cs, c.embedding.length ≠ EMBEDDING_DIM) :
    ∃ m, m ≠ EMBEDDING_DIM ∧
      validateAll cs = .error (.InvalidEmbeddingDimension (dimensionMismatchMsg m)) := by
  induction cs with
  | nil => simp at h
  | cons c rest ih =>
      by_cases hc : c.embedding.length = EMBEDDING_DIM
      · have hv : validate_embedding c.embedding = .ok () :=
          (validate_embedding_ok_iff _).mpr hc
        have hrest : ∃ d ∈ rest, d.embedding.length ≠ EMBEDDING_DIM := by
          obtain ⟨d, hd, hdl⟩ := h
          rcases List.mem_cons.mp hd with h1 | h2
          · exact absurd (h1 ▸ hc) hdl
          · exact ⟨d, h2, hdl⟩
        obtain ⟨m, hm, hval⟩ := ih hrest
        exact ⟨m, hm, by simp [validateAll, hv, hval]⟩
      · refine ⟨c.embedding.length, hc, ?_⟩
        have : validate_embedding c.embedding =
            .error (.InvalidEmbeddingDimension (dimensionMismatchMsg c.embedding.length)) := by
          simp [validate_embedding, hc]
        simp [validateAll, this]

theorem batchExecs_ok_iff (st : DBState) (cs : List Chunks) :
    (batchExecs st cs).2 = .ok () ↔ ∀ c ∈ cs, chunkInsertAccepted st c = true := by
  induction cs with
  | nil => simp [batchExecs]
  | cons c rest ih =>
      by_cases hc : chunkInsertAccepted st c = true
      · simp [batchExecs, hc, ih]
      · simp [batchExecs, hc]

theorem batchExecs_ok_trace (st : DBState) (cs : List Chunks)
    (h : (batchExecs st cs).2 = .ok ()) :
    (batchExecs st cs).1 = execResetSeq cs := by
  induction cs with
  | nil => simp [batchExecs, execResetSeq]
  | cons c rest ih =>
      by_cases hc : chunkInsertAccepted st c = true
      · have h' : (batchExecs st rest).2 = .ok () := by
          simp [batchExecs, hc] at h
          exact h
        simp [batchExecs, hc, execResetSeq, ih h']
      · simp [batchExecs, hc] at h
  
theorem batchExecs_cmds (st : DBState) (cs : List Chunks) :
    ∀ cmd ∈ (batchExecs st cs).1,
      (∃ c, cmd = Cmd.execInsertChunk c) ∨ cmd = Cmd.resetStmt := by
  induction cs with
  | nil => simp [batchExecs]
  | cons c rest ih =>
      by_cases hc : chunkInsertAccepted st c = true
      · intro cmd hcmd
        simp [batchExecs, hc] at hcmd
        rcases hcmd with h1 | h2 | h3
        · exact .inl ⟨c, h1⟩
        · exact .inr h2
        · exact ih cmd h3
      · simp [batchExecs, hc]

theorem noCommit_committed (tr : List Cmd)
    (hc : ∀ cmd ∈ tr, cmd ≠ Cmd.commitTx) :
    ∀ (st t : DBState),
      (tr.foldl stepCmd { committed := st, tx := some t }).committed = st := by
  induction tr with
  | nil => intro st t; rfl
  | cons cmd rest ih =>
      intro st t
      have hrest : ∀ cmd ∈ rest, cmd ≠ Cmd.commitTx :=
        fun c hmem => hc c (List.mem_cons_of_mem _ hmem)
      cases cmd with
      | beginTx => simpa [stepCmd] using ih hrest st st
      | prepareStmt s => simpa [stepCmd] using ih hrest st t
      | resetStmt => simpa [stepCmd] using ih hrest st t
      | execQuery s => simpa [stepCmd] using ih hrest st t
      | execInsertChunk c => simpa [stepCmd] using ih hrest st (addChunkRow t c)
      | execInsertComic c => simpa [stepCmd] using ih hrest st (addComic t c)
      | execUpdateComic n lrid lrts upd =>
          simpa [stepCmd] using ih hrest st (updateComicRow t n lrid lrts upd)
      | commitTx => exact absurd rfl (hc Cmd.commitTx (List.mem_cons_self _ _))

theorem execResetSeq_fold (cs : List Chunks) :
    ∀ (stc t : DBState),
      (execResetSeq cs).foldl stepCmd { committed := stc, tx := some t } =
        { committed := stc, tx := some (cs.foldl addChunkRow t) } := by
  induction cs with
  | nil => intro stc t; rfl
  | cons c rest ih =>
      intro stc t
      simpa [execResetSeq, stepCmd] using ih stc (addChunkRow t c)

theorem updateComicRow_not_found (st : DBState) (n lrid : Nat) (lrts upd : String)
    (h : hasComic st n = false) :
    updateComicRow st n lrid lrts upd = st := by
  have hall : ∀ c ∈ st.comics, (c.comic_number == n) = false := by
    intro c hc
    by_contra hcontra
    have : (c.comic_number == n) = true := by
      cases hcn : (c.comic_number == n) with
      | true => rfl
      | false => exact absurd hcn hcontra
    have : hasComic st n = true := by
      unfold hasComic
      exact List.any_eq_true.mpr ⟨c, hc, this⟩
    simp [this] at h
  have hmap : ∀ l : List Comics, (∀ c ∈ l, (c.comic_number == n) = false) →
      l.map (fun c =>
        if c.comic_number == n then updatedComic c lrid lrts upd else c) = l := by
    intro l
    induction l with
    | nil => intro _; rfl
    | cons a t iht =>
        intro hl
        have ha := hl a (List.mem_cons_self _ _)
        have ht := iht (fun c hc => hl c (List.mem_cons_of_mem _ hc))
        simp only [List.map_cons, ht]
        rw [if_neg (by simp [ha] : ¬ (a.comic_number == n) = true)]
  unfold updateComicRow
  rw [hmap st.comics hall]

/-! ## Concrete fixtures used by witnesses and counterexamples -/

/-- A concrete comic record numbered `n` (mirrors the `make_comic` test
fixture in src/db/src/comics.rs). -/
def comicW (n : Nat) : Comics :=
  { comic_number := n, title := "Comic", url := "https://explainxkcd.com/1",
    xkcd_url := "https://xkcd.com/1", hover_text := some "Hover",
    last_revision_id := 12345, last_revision_timestamp := "20250127000000",
    scraped_at := "2025-01-27T00:00:00Z", updated_at := "2025-01-27T00:00:00Z" }

/-- A freshly initialized empty database (foreign keys on, as after
`Database::init`). -/
def emptyDB : DBState :=
  { comics := [], chunks := [], next_id := 1, foreign_keys := true }

/-- A database holding exactly comic number 1. -/
def dbWithComic1 : DBState :=
  { comics := [comicW 1], chunks := [], next_id := 1, foreign_keys := true }

/-- A database holding comics 1 through 5. -/
def dbWithComics5 : DBState :=
  { comics := [comicW 1, comicW 2, comicW 3, comicW 4, comicW 5],
    chunks := [], next_id := 1, foreign_keys := true }

/-- A concrete chunk for comic `n` with the given embedding. -/
def chunkW (n : Nat) (e : List Nat) : Chunks :=
  { id := none, comic_number := n, chunk_text := "Chunk", chunk_index := 0,
    section_type := some SectionType.Explanation, embedding := e }

/-- A correctly sized concrete embedding (all bit patterns zero). -/
def goodEmbedding : List Nat := List.replicate EMBEDDING_DIM 0

/-! ## Claim theorems -/

/-- Claim C2 (code bug): on every successful open, foreign-key
enforcement should be explicitly enabled on the resulting connection.
The fresh-creation path (`Database::init`) does execute
`PRAGMA foreign_keys = ON`, but the existing-file path of
`Database::new` opens a connection, reads the INITIALIZED marker and
returns the connection without ever executing the pragma, so that
connection is returned with foreign-key enforcement off. -/
theorem database_new_reopen_foreign_keys_off :
    database_new { fileExists := false, initializedMarker := none } =
      .ok { foreign_keys_enabled := true } ∧
    database_new { fileExists := true, initializedMarker := some "true" } =
      .ok { foreign_keys_enabled := false } :=
  ⟨rfl, rfl⟩

/-- Claim C4 counterexample: inserting a comic whose number is already
present fails with the generic `QueryFailed` kind (the code maps the
engine's constraint rejection through
`DatabaseError::QueryFailed(e.to_string())`), which is not one of the
conflict kinds (`ComicAlreadyExists`, `ConstraintViolation`) of the
error taxonomy, refuting the claim that a distinct conflict kind is
returned. -/
theorem insert_comic_duplicate_not_conflict_kind :
    (insert_comic dbWithComic1 (comicW 1)).2 =
      .error (.QueryFailed uniqueViolationMsg) ∧
    isConflictKind (.QueryFailed uniqueViolationMsg) = false :=
  ⟨rfl, rfl⟩

/-- Claim C4 (amended): for every comic whose `comic_number` is already
present, `insert_comic` fails with `QueryFailed` wrapping the engine's
unique-constraint message (not a distinct conflict kind), and the stored
comics are unchanged. -/
theorem insert_comic_duplicate_query_failed (st : DBState) (c : Comics)
    (h : hasComic st c.comic_number = true) :
    (insert_comic st c).2 = .error (.QueryFailed uniqueViolationMsg) ∧
    runTrace st (insert_comic st c).1 = st := by
  constructor
  · simp [insert_comic, h]
  · simp [insert_comic, h, runTrace, stepCmd]

/-- Witness for the amended C4 theorem at a concrete duplicate insert. -/
theorem insert_comic_duplicate_query_failed_witness :
    hasComic dbWithComic1 (comicW 1).comic_number = true ∧
    runTrace dbWithComic1 (insert_comic dbWithComic1 (comicW 1)).1 = dbWithComic1 :=
  ⟨by decide,
    (insert_comic_duplicate_query_failed dbWithComic1 (comicW 1) (by decide)).2⟩

/-- Claim C5: `vector_search_filtered` with an empty filter set returns
an empty result list without error, for every engine, state, query
embedding and `top_k` (spec-modelled: the function is named by the spec
but absent from src/). -/
theorem vector_search_filtered_empty
    (engineTopK : DBState → List Nat → Nat → List Nat)
    (st : DBState) (q : List Nat) (k : Nat) :
    vector_search_filtered engineTopK st q k [] = ([], .ok []) := rfl

/-- Claim C6 counterexample: the claim says every `ChunkSearchResult`
carries a similarity score field `distance`; the struct declared in
src/db/src/chunks.rs has no such field (and the search query selects no
distance column), so "distance" is not among its field names. -/
theorem chunkSearchResult_distance_absent :
    "distance" ∉ chunkSearchResultFields := by decide

/-- Claim C6 (amended): every `ChunkSearchResult` carries exactly the
fields chunk_id, comic_number, chunk_text, section_type, comic_title,
xkcd_url and hover_text — a value is fully determined by those seven
projections — and carries no `distance` field. -/
theorem chunkSearchResult_fields_exact :
    (∀ r : ChunkSearchResult,
        r = { chunk_id := r.chunk_id, comic_number := r.comic_number,
              chunk_text := r.chunk_text, section_type := r.section_type,
              comic_title := r.comic_title, xkcd_url := r.xkcd_url,
              hover_text := r.hover_text }) ∧
    chunkSearchResultFields = ["chunk_id", "comic_number", "chunk_text",
      "section_type", "comic_title", "xkcd_url", "hover_text"] ∧
    "distance" ∉ chunkSearchResultFields :=
  ⟨fun _ => rfl, rfl, by decide⟩

/-- Claim C7 counterexample: `update_comic` on a comic number absent from
the store returns `InvalidComicNumber` — a variant from the taxonomy's
data-validation section — not one of the not-found kinds, refuting the
claim that a not-found error kind is returned. -/
theorem update_comic_missing_not_notfound_kind :
    (update_comic emptyDB 999 12345 "20250127000000" "2025-01-27T00:00:00Z").2 =
      .error (.InvalidComicNumber 999) ∧
    isNotFoundKind (.InvalidComicNumber 999) = false :=
  ⟨rfl, rfl⟩

/-- Claim C7 (amended): for every comic number not present in the store,
`update_comic` fails with the distinct `InvalidComicNumber` error
(raised when zero rows matched; classified as a validation error in the
taxonomy rather than a not-found kind) and does not insert a row — the
store is unchanged by the failed call. -/
theorem update_comic_missing_invalid_comic_number (st : DBState)
    (n lrid : Nat) (lrts upd : String) (h : hasComic st n = false) :
    (update_comic st n lrid lrts upd).2 = .error (.InvalidComicNumber n) ∧
    runTrace st (update_comic st n lrid lrts upd).1 = st := by
  constructor
  · simp [update_comic, h]
  · simp [update_comic, h, runTrace, stepCmd, updateComicRow_not_found st n lrid lrts upd h]

/-- Witness for the amended C7 theorem at a concrete missing comic. -/
theorem update_comic_missing_invalid_comic_number_witness :
    hasComic emptyDB 999 = false ∧
    runTrace emptyDB
      (update_comic emptyDB 999 12345 "20250127000000" "2025-01-27T00:00:00Z").1 =
      emptyDB :=
  ⟨by decide,
    (update_comic_missing_invalid_comic_number emptyDB 999 12345
      "20250127000000" "2025-01-27T00:00:00Z" (by decide)).2⟩

/-- Claim C9: for every byte sequence whose length is a multiple of 4,
the decoder returns length/4 floats, and the i-th float is the
little-endian IEEE-754 single-precision interpretation (bit reassembly)
of bytes 4i through 4i+3, preserving the original order. -/
theorem f32_blob_to_vec_decode_spec (blob : List Nat)
    (h : blob.length % 4 = 0) :
    (f32_blob_to_vec blob).length = blob.length / 4 ∧
    ∀ i, i < blob.length / 4 →
      (f32_blob_to_vec blob)[i]? =
        some (f32_from_le_bytes (blob.getD (4 * i) 0) (blob.getD (4 * i + 1) 0)
          (blob.getD (4 * i + 2) 0) (blob.getD (4 * i + 3) 0)) :=
  ⟨f32_blob_to_vec_length blob, f32_blob_to_vec_get blob⟩

/-- Witness for the C9 theorem at a concrete 8-byte blob. -/
theorem f32_blob_to_vec_decode_spec_witness :
    ([1, 0, 0, 0, 0, 0, 128, 63] : List Nat).length % 4 = 0 ∧
    (f32_blob_to_vec [1, 0, 0, 0, 0, 0, 128, 63]).length = 2 := by
  refine ⟨by decide, ?_⟩
  have h := (f32_blob_to_vec_decode_spec [1, 0, 0, 0, 0, 0, 128, 63] (by decide)).1
  simpa using h

/-- Claim C10: the decoder is total on every byte sequence: an input of
n bytes yields exactly n / 4 floats (integer division), and the result
only depends on the first 4 * (n / 4) bytes — a trailing remainder of
1 to 3 bytes is silently discarded, so decoding a stored embedding never
fails on a malformed blob length. -/
theorem f32_blob_to_vec_total (blob : List Nat) :
    (f32_blob_to_vec blob).length = blob.length / 4 ∧
    f32_blob_to_vec blob = f32_blob_to_vec (blob.take (4 * (blob.length / 4))) :=
  ⟨f32_blob_to_vec_length blob, f32_blob_to_vec_take blob⟩

/-- Claim C3: for every embedding of the wrong length, `insert_chunk`,
`vector_search` and `insert_chunks_batch` of a list containing it each
fail with the dimension-mismatch kind, whose message reports the
expected and actual length, before any statement is issued to the
engine (empty trace), leaving storage unchanged. -/
theorem dimension_mismatch_rejected (st : DBState) (e : List Nat)
    (h : e.length ≠ EMBEDDING_DIM) :
    (∀ c : Chunks, c.embedding = e →
        insert_chunk st c =
          ([], .error (.InvalidEmbeddingDimension (dimensionMismatchMsg e.length)))) ∧
    (∀ (engineTopK : DBState → List Nat → Nat → List Nat) (k : Nat),
        vector_search engineTopK st e k =
          ([], .error (.InvalidEmbeddingDimension (dimensionMismatchMsg e.length)))) ∧
    (∀ cs : List Chunks, (∃ c ∈ cs, c.embedding = e) →
        (insert_chunks_batch st cs).1 = [] ∧
        (∃ m, m ≠ EMBEDDING_DIM ∧
          (insert_chunks_batch st cs).2 =
            .error (.InvalidEmbeddingDimension (dimensionMismatchMsg m))) ∧
        runTrace st (insert_chunks_batch st cs).1 = st) := by
  have hval : validate_embedding e =
      .error (.InvalidEmbeddingDimension (dimensionMismatchMsg e.length)) := by
    simp [validate_embedding, h]
  refine ⟨?_, ?_, ?_⟩
  · intro c hc
    simp [insert_chunk, hc, hval]
  · intro engineTopK k
    simp [vector_search, hval]
  · intro cs hcs
    have hbad : ∃ c ∈ cs, c.embedding.length ≠ EMBEDDING_DIM := by
      obtain ⟨c, hc, hce⟩ := hcs
      exact ⟨c, hc, by rw [hce]; exact h⟩
    obtain ⟨m, hm, hvalAll⟩ := validateAll_error_of_bad cs hbad
    refine ⟨?_, ⟨m, hm, ?_⟩, ?_⟩
    · simp [insert_chunks_batch, hvalAll]
    · simp [insert_chunks_batch, hvalAll]
    · simp [insert_chunks_batch, hvalAll, runTrace]

/-- Witness for the C3 theorem: an empty embedding against an empty
store. -/
theorem dimension_mismatch_rejected_witness :
    ([] : List Nat).length ≠ EMBEDDING_DIM ∧
    insert_chunk emptyDB (chunkW 1 []) =
      ([], .error (.InvalidEmbeddingDimension (dimensionMismatchMsg 0))) := by
  refine ⟨by decide, ?_⟩
  have h := (dimension_mismatch_rejected emptyDB [] (by decide)).1 (chunkW 1 []) rfl
  simpa using h

/-- Claim C8: `get_comics_batch` returns exactly the comics of the input
numbers that exist in the store, in ascending `comic_number` order (the
primary-key scan order of the table), each matching comic once (pairwise
strictly ascending numbers); the result depends only on the input's
membership (not its order or duplicates), and the empty input yields the
empty output. -/
theorem get_comics_batch_spec (st : DBState) (nums : List Nat)
    (hs : (st.comics.map Comics.comic_number).Pairwise (· < ·)) :
    (∀ c, c ∈ get_comics_batch st nums ↔ c ∈ st.comics ∧ c.comic_number ∈ nums) ∧
    ((get_comics_batch st nums).map Comics.comic_number).Pairwise (· < ·) ∧
    (∀ nums' : List Nat, (∀ x, x ∈ nums' ↔ x ∈ nums) →
        get_comics_batch st nums' = get_comics_batch st nums) ∧
    get_comics_batch st [] = [] := by
  refine ⟨?_, ?_, ?_, ?_⟩
  · intro c
    simp [get_comics_batch, List.mem_filter]
  · exact hs.sublist ((List.filter_sublist st.comics).map Comics.comic_number)
  · intro nums' hx
    apply List.filter_congr
    intro c _
    apply Bool.eq_iff_iff.mpr
    constructor
    · intro hb
      have : c.comic_number ∈ nums' := by simpa using hb
      simpa using (hx c.comic_number).mp this
    · intro hb
      have : c.comic_number ∈ nums := by simpa using hb
      simpa using (hx c.comic_number).mpr this
  · simp [get_comics_batch]

/-- Witness for the C8 theorem: comics 1 through 5 queried with the spec
example input [2, 4, 1]. -/
theorem get_comics_batch_spec_witness :
    ((dbWithComics5.comics.map Comics.comic_number).Pairwise (· < ·)) ∧
    ((get_comics_batch dbWithComics5 [2, 4, 1]).map Comics.comic_number).Pairwise
      (· < ·) :=
  ⟨by decide, (get_comics_batch_spec dbWithComics5 [2, 4, 1] (by decide)).2.1⟩

theorem execReset_only_not_mem (tr : List Cmd)
    (h : ∀ cmd ∈ tr, (∃ c, cmd = Cmd.execInsertChunk c) ∨ cmd = Cmd.resetStmt) :
    Cmd.beginTx ∉ tr ∧ Cmd.prepareStmt insertChunkSql ∉ tr ∧ Cmd.commitTx ∉ tr := by
  refine ⟨?_, ?_, ?_⟩ <;>
    · intro hmem
      rcases h _ hmem with ⟨c, hc⟩ | hc <;> simp at hc

theorem runTrace_no_commit (st : DBState) (tr : List Cmd)
    (h : ∀ cmd ∈ tr, (∃ c, cmd = Cmd.execInsertChunk c) ∨ cmd = Cmd.resetStmt) :
    runTrace st (Cmd.beginTx :: Cmd.prepareStmt insertChunkSql :: tr) = st := by
  have hnc : ∀ cmd ∈ tr, cmd ≠ Cmd.commitTx := by
    intro cmd hm heq
    rcases h cmd hm with ⟨c, hc⟩ | hc <;> rw [heq] at hc <;> simp at hc
  exact noCommit_committed tr hnc st st

/-- Claim C1: `insert_chunks_batch` is all-or-nothing.  (A) When some
member's embedding has the wrong length, validation fails before any
statement is issued: the trace is empty (no transaction started, no row
written), the result is a dimension error and storage is unchanged.
(B) When validation passes, the trace contains exactly one transaction
begin and one statement preparation, and a commit appears iff the call
succeeded.  (C) When additionally every member is accepted by the
engine, the trace is the begin, the single preparation, one execution
followed by one parameter reset per member in order, and the commit;
the call succeeds and all members are persisted.  (D) When foreign-key
enforcement is on and some member references a nonexistent comic, the
call fails and storage is unchanged — zero rows of the batch persist,
including valid members that preceded the offending one. -/
theorem insert_chunks_batch_atomicity (st : DBState) (cs : List Chunks) :
    ((∃ c ∈ cs, c.embedding.length ≠ EMBEDDING_DIM) →
        (insert_chunks_batch st cs).1 = [] ∧
        (∃ msg, (insert_chunks_batch st cs).2 =
          .error (.InvalidEmbeddingDimension msg)) ∧
        runTrace st (insert_chunks_batch st cs).1 = st) ∧
    ((∀ c ∈ cs, c.embedding.length = EMBEDDING_DIM) →
        (insert_chunks_batch st cs).1.count Cmd.beginTx = 1 ∧
        (insert_chunks_batch st cs).1.count (Cmd.prepareStmt insertChunkSql) = 1 ∧
        (Cmd.commitTx ∈ (insert_chunks_batch st cs).1 ↔
          exceptIsOk (insert_chunks_batch st cs).2 = true)) ∧
    ((∀ c ∈ cs, c.embedding.length = EMBEDDING_DIM) →
      (∀ c ∈ cs, chunkInsertAccepted st c = true) →
        (insert_chunks_batch st cs).1 =
          Cmd.beginTx :: Cmd.prepareStmt insertChunkSql ::
            execResetSeq cs ++ [Cmd.commitTx] ∧
        (insert_chunks_batch st cs).2 = .ok () ∧
        runTrace st (insert_chunks_batch st cs).1 = cs.foldl addChunkRow st) ∧
    (st.foreign_keys = true →
      (∀ c ∈ cs, c.embedding.length = EMBEDDING_DIM) →
      (∃ c ∈ cs, hasComic st c.comic_number = false) →
        exceptIsOk (insert_chunks_batch st cs).2 = false ∧
        runTrace st (insert_chunks_batch st cs).1 = st) := by
  refine ⟨?_, ?_, ?_, ?_⟩
  · -- (A) invalid dimension: rejected before any engine interaction
    intro hbad
    obtain ⟨m, _, hval⟩ := validateAll_error_of_bad cs hbad
    refine ⟨?_, ⟨dimensionMismatchMsg m, ?_⟩, ?_⟩ <;>
      simp [insert_chunks_batch, hval, runTrace]
  · -- (B) one transaction, one prepared statement, commit iff success
    intro hgood
    have hval : validateAll cs = .ok () := (validateAll_ok_iff cs).mpr hgood
    have hcmds := batchExecs_cmds st cs
    obtain ⟨hnb, hnp, hnc⟩ := execReset_only_not_mem _ hcmds
    cases hbe : (batchExecs st cs).2 with
    | error e =>
        have htr : (insert_chunks_batch st cs).1 =
            Cmd.beginTx :: Cmd.prepareStmt insertChunkSql :: (batchExecs st cs).1 := by
          simp [insert_chunks_batch, hval, hbe]
        have hres : (insert_chunks_batch st cs).2 = .error e := by
          simp [insert_chunks_batch, hval, hbe]
        rw [htr, hres]
        refine ⟨?_, ?_, ?_⟩
        · simp [List.count_cons, List.count_eq_zero.mpr hnb]
        · simp [List.count_cons, List.count_eq_zero.mpr hnp]
        · simp [exceptIsOk, hnc]
    | ok u =>
        have htr : (insert_chunks_batch st cs).1 =
            Cmd.beginTx :: Cmd.prepareStmt insertChunkSql ::
              (batchExecs st cs).1 ++ [Cmd.commitTx] := by
          simp [insert_chunks_batch, hval, hbe]
        have hres : (insert_chunks_batch st cs).2 = .ok () := by
          simp [insert_chunks_batch, hval, hbe]
        rw [htr, hres]
        refine ⟨?_, ?_, ?_⟩
        · simp [List.count_cons, List.count_append, List.count_eq_zero.mpr hnb]
        · simp [List.count_cons, List.count_append, List.count_eq_zero.mpr hnp]
        · simp [exceptIsOk]
  · -- (C) fully valid batch: exec and reset per member, commit, all rows persisted
    intro hgood hacc
    have hval : validateAll cs = .ok () := (validateAll_ok_iff cs).mpr hgood
    have hbe : (batchExecs st cs).2 = .ok () := (batchExecs_ok_iff st cs).mpr hacc
    have hseq : (batchExecs st cs).1 = execResetSeq cs := batchExecs_ok_trace st cs hbe
    have htr : (insert_chunks_batch st cs).1 =
        Cmd.beginTx :: Cmd.prepareStmt insertChunkSql ::
          execResetSeq cs ++ [Cmd.commitTx] := by
      simp [insert_chunks_batch, hval, hbe, hseq]
    refine ⟨htr, ?_, ?_⟩
    · simp [insert_chunks_batch, hval, hbe]
    · rw [htr]
      unfold runTrace
      have hfold : (execResetSeq cs ++ [Cmd.commitTx]).foldl stepCmd
          { committed := st, tx := some st } =
          { committed := cs.foldl addChunkRow st, tx := none } := by
        rw [List.foldl_append, execResetSeq_fold cs st st]
        rfl
      calc ((Cmd.beginTx :: Cmd.prepareStmt insertChunkSql ::
            execResetSeq cs ++ [Cmd.commitTx]).foldl stepCmd
            { committed := st, tx := none }).committed
          = ((execResetSeq cs ++ [Cmd.commitTx]).foldl stepCmd
            { committed := st, tx := some st }).committed := rfl
        _ = cs.foldl addChunkRow st := by rw [hfold]
  · -- (D) foreign-key violation inside the batch: error, nothing persisted
    intro hfk hgood hmissing
    have hval : validateAll cs = .ok () := (validateAll_ok_iff cs).mpr hgood
    have hnotall : ¬ ∀ c ∈ cs, chunkInsertAccepted st c = true := by
      intro hall
      obtain ⟨c, hc, hmiss⟩ := hmissing
      have := hall c hc
      simp [chunkInsertAccepted, hfk, hmiss] at this
    cases hbe : (batchExecs st cs).2 with
    | ok u =>
        exact absurd ((batchExecs_ok_iff st cs).mp (by simpa using hbe)) hnotall
    | error e =>
        have htr : (insert_chunks_batch st cs).1 =
            Cmd.beginTx :: Cmd.prepareStmt insertChunkSql :: (batchExecs st cs).1 := by
          simp [insert_chunks_batch, hval, hbe]
        have hres : (insert_chunks_batch st cs).2 = .error e := by
          simp [insert_chunks_batch, hval, hbe]
        refine ⟨by rw [hres]; rfl, ?_⟩
        rw [htr]
        exact runTrace_no_commit st _ (batchExecs_cmds st cs)

set_option maxRecDepth 8000 in
/-- Witness for the C1 theorem: a batch with an empty embedding is
rejected with an empty trace; a two-member batch whose second member
references a missing comic fails and persists nothing; a valid
single-member batch succeeds. -/
theorem insert_chunks_batch_atomicity_witness :
    (insert_chunks_batch emptyDB [chunkW 1 []]).1 = [] ∧
    exceptIsOk (insert_chunks_batch dbWithComic1
      [chunkW 1 goodEmbedding, chunkW 999 goodEmbedding]).2 = false ∧
    runTrace dbWithComic1 (insert_chunks_batch dbWithComic1
      [chunkW 1 goodEmbedding, chunkW 999 goodEmbedding]).1 = dbWithComic1 ∧
    (insert_chunks_batch dbWithComic1 [chunkW 1 goodEmbedding]).2 = .ok () := by
  have hA := (insert_chunks_batch_atomicity emptyDB [chunkW 1 []]).1
    (by decide)
  have hC := (insert_chunks_batch_atomicity dbWithComic1
    [chunkW 1 goodEmbedding]).2.2.1 (by decide) (by decide)
  have hD := (insert_chunks_batch_atomicity dbWithComic1
    [chunkW 1 goodEmbedding, chunkW 999 goodEmbedding]).2.2.2 rfl
    (by decide) (by decide)
  exact ⟨hA.1, hD.1, hD.2, hC.2.1⟩
